import Mathlib

/-!
# Verification of the `daemon` package (github.com/kenretto/daemon)

Shallow embedding of the daemonization library:

* `pid.go` — the `Pid` record with `SaveFilename`, `Save`, `Remove`.
* `process.go` — the `Process` lifecycle controller: `NewProcess`
  default-handler registration, `IsChild`, `Run`, and the three built-in
  signal handlers (interrupt, SIGUSR1 "stop", SIGUSR2 "restart").

Side effects are embedded explicitly:

* the filesystem and the table of open file descriptors form a `Sys` state;
* the process environment is an association list `Env`;
* signal handlers are embedded as the *traces of events* they emit; the
  restart handler, whose body races a goroutine running `worker.Restart()`
  against the main line, is embedded as the *set* of traces obtained by
  interleaving (`Shuffle`) the goroutine's events with the main line's
  events, with the unbuffered `done` channel rendezvous pinned after both.

Fallible syscalls (the `write` of the pid file, `cmd.Start()`) are driven
by an oracle `Ctx` carrying their outcome for the run under consideration.
-/

set_option maxHeartbeats 1000000

namespace Daemon

/-! ## Filesystem and descriptor state -/

/-- The file store: an association list from absolute path to file content. -/
abbrev FS := List (String × String)

/-- Look up the content of a file (`none` = file does not exist). -/
def fsGet (fs : FS) (path : String) : Option String :=
  (fs.find? (fun kv => kv.1 == path)).map Prod.snd

/-- Remove a file (no-op when absent, matching `os.Remove` with its error
ignored). -/
def fsDelete (fs : FS) (path : String) : FS :=
  fs.filter (fun kv => kv.1 != path)

/-- Create/truncate a file with the given content. -/
def fsSet (fs : FS) (path content : String) : FS :=
  (path, content) :: fsDelete fs path

/-- Kernel-visible state: the file store plus the set of open file
descriptors of the current process (used to track handle leaks). -/
structure Sys where
  fs : FS
  openFDs : List Nat
  nextFD : Nat
deriving DecidableEq

/-- Close an optional file handle: `(*os.File)(nil).Close()` returns
`ErrInvalid` without panicking, and `Pid.Remove` ignores the close error, so
closing `none` is the identity and closing an fd removes it from the open
set (a second close of the same fd errors and is likewise ignored). -/
def closeFile (s : Sys) (h : Option Nat) : Sys :=
  match h with
  | none => s
  | some fd => { s with openFDs := s.openFDs.filter (fun x => x != fd) }

/-! ## Process environment -/

/-- The process environment, as `os.Getenv`/`os.Unsetenv`/`os.Environ` see
it: an association list from variable name to value. -/
abbrev Env := List (String × String)

/-- `os.Getenv`: the empty string when the variable is unset. -/
def getenv (env : Env) (k : String) : String :=
  ((env.find? (fun kv => kv.1 == k)).map Prod.snd).getD ""

/-- `os.Unsetenv`: remove every binding of the variable. -/
def envUnset (env : Env) (k : String) : Env :=
  env.filter (fun kv => kv.1 != k)

/-- `os.Environ`: the environment rendered as `"key=value"` strings. -/
def envRender (env : Env) : List String :=
  env.map (fun kv => kv.1 ++ "=" ++ kv.2)

/-! ## The PID record (`pid.go`) -/

/-- `Pid` — "The process id information and process pid file descriptors
that are mainly recorded here".  `File` is the retained handle (`*os.File`,
`none` = nil).  The Go field `Pid` (the numeric identifier) is embedded as
`PidNum` because a Lean structure field cannot shadow its own type's name. -/
structure Pid where
  ServicesName : String
  SavePath : String
  PidNum : Int
  File : Option Nat := none
deriving DecidableEq

/-- `SaveFilename`: `fmt.Sprintf("%s/%s.pid", filepath.Abs(pid.SavePath),
pid.ServicesName)`.  `filepath.Abs` depends only on the process's working
directory, embedded as the function `abs` (fixed for one process; the
package never calls `os.Chdir`).  The Go code panics when `Abs` errors;
`abs` is embedded as total since that error cannot occur for the
directory strings the package handles. -/
def Pid.SaveFilename (abs : String → String) (pid : Pid) : String :=
  abs pid.SavePath ++ "/" ++ pid.ServicesName ++ ".pid"

/-- Modelled from the spec: the `write` helper called by `Pid.Save` is not
among the provided sources.  Per the spec (§4.1), `Save` "resolves the
absolute file path, opens/creates it for writing, writes the decimal string
form of the numeric identifier, and retains the file handle", and "fails
with an I/O error if the directory is inaccessible".  `write` therefore
creates/truncates the file with the given content and returns a fresh open
descriptor, or fails with the I/O error the oracle `fail` injects. -/
def write (s : Sys) (filename content : String) (fail : Option String) :
    Sys × Except String Nat :=
  match fail with
  | some e => (s, Except.error e)
  | none =>
      ({ fs := fsSet s.fs filename content,
         openFDs := s.nextFD :: s.openFDs,
         nextFD := s.nextFD + 1 },
       Except.ok s.nextFD)

/-- The body of `Pid.Save` as it acts on the method's local receiver copy:
`pid.File, err = write(pid.SaveFilename(), strconv.Itoa(pid.Pid))`.
Returns (new system state, returned error, the local copy after the
assignment to its `File` field). -/
def Pid.SaveLocal (pid : Pid) (abs : String → String) (s : Sys)
    (fail : Option String) : Sys × Option String × Pid :=
  match write s (pid.SaveFilename abs) (toString pid.PidNum) fail with
  | (s', Except.error e) => (s', some e, pid)
  | (s', Except.ok fd) => (s', none, { pid with File := some fd })

/-- `Pid.Save` as the caller observes it.  The Go method has a VALUE
receiver (`func (pid Pid) Save() error`), so the assignment to `pid.File`
lands in a discarded copy: the caller's record is left unchanged, and only
the system-state change and the error are visible. -/
def Pid.Save (pid : Pid) (abs : String → String) (s : Sys)
    (fail : Option String) : Sys × Option String :=
  ((pid.SaveLocal abs s fail).1, (pid.SaveLocal abs s fail).2.1)

/-- `Pid.Remove`: `pid.File.Close()` (error ignored), then
`os.Remove(pid.SaveFilename())` (error ignored). -/
def Pid.Remove (pid : Pid) (abs : String → String) (s : Sys) : Sys :=
  let s1 := closeFile s pid.File
  { s1 with fs := fsDelete s1.fs (pid.SaveFilename abs) }

/-! ## Basic lemmas on the state model -/

theorem fsGet_fsSet (fs : FS) (path content : String) :
    fsGet (fsSet fs path content) path = some content := by
  simp [fsGet, fsSet, List.find?]

theorem filter_self_idem {α : Type} (f : α → Bool) (l : List α) :
    (l.filter f).filter f = l.filter f := by
  induction l with
  | nil => rfl
  | cons a t ih =>
      by_cases h : f a = true
      · simp [List.filter_cons, h, ih]
      · simp [List.filter_cons, h, ih]

theorem find?_filter_ne {α : Type} (l : List (String × α)) (k : String) :
    (l.filter (fun kv => kv.1 != k)).find? (fun kv => kv.1 == k) = none := by
  induction l with
  | nil => rfl
  | cons a t ih =>
      by_cases h : a.1 = k
      · simp [List.filter_cons, h, ih]
      · simp [List.filter_cons, bne, h, List.find?_cons, ih]

theorem find?_fsDelete (fs : FS) (path : String) :
    (fsDelete fs path).find? (fun kv => kv.1 == path) = none :=
  find?_filter_ne fs path

theorem fsGet_fsDelete (fs : FS) (path : String) :
    fsGet (fsDelete fs path) path = none := by
  simp [fsGet, find?_fsDelete]

theorem fsDelete_idem (fs : FS) (path : String) :
    fsDelete (fsDelete fs path) path = fsDelete fs path :=
  filter_self_idem _ fs

theorem getenv_envUnset (env : Env) (k : String) :
    getenv (envUnset env k) k = "" := by
  unfold getenv envUnset
  rw [find?_filter_ne]
  rfl

/-! ## The lifecycle controller (`process.go`) -/

/-- The behaviour of a `Worker` implementation for one run: its identity
(`Name`, `PidSavePath`) and the outcomes its lifecycle operations return
(`none` = nil error).  `Start()` returns nothing. -/
structure Worker where
  Name : String
  PidSavePath : String
  stopResult : Option String
  restartResult : Option String
deriving DecidableEq

/-- `Process` — the lifecycle controller.  `Pipeline` is the triple of
stream endpoints (`[3]*os.File`, embedded as abstract stream identifiers:
`Pipeline.1` = index 0 / stdin, `Pipeline.2.1` = index 1 / stdout,
`Pipeline.2.2` = index 2 / stderr).  The signal-handler map is kept
separately (see `defaultHandlers`) because its entries are trace sets. -/
structure Process where
  Pipeline : Nat × Nat × Nat
  Pid : Pid
  worker : Worker
  DaemonTag : String
deriving DecidableEq

/-- The child invocation `Run` constructs on the parent path:
`exec.Command(os.Args[0], os.Args[1:]...)` with
`cmd.Env = append(os.Environ(), fmt.Sprintf("%s=true", process.DaemonTag))`
and `cmd.Stdin, cmd.Stdout, cmd.Stderr = process.Pipeline[0..2]`. -/
structure Cmd where
  path : String
  args : List String
  env : List String
  stdin : Nat
  stdout : Nat
  stderr : Nat
deriving DecidableEq

/-- Observable events emitted by `Run` and the signal handlers. -/
inductive Event where
  /-- `process.worker.Stop()` invoked (call and return). -/
  | workerStop
  /-- `go process.worker.Start()` issued. -/
  | workerStart
  /-- `process.worker.Restart()` invoked (call and return). -/
  | workerRestart
  /-- `WriteString msg` on the given stream endpoint. -/
  | writeStream (stream : Nat) (msg : String)
  /-- `process.Pid.Save()` called. -/
  | pidSave
  /-- `process.Pid.Remove()` called. -/
  | pidRemove
  /-- `os.Unsetenv name` called. -/
  | unsetEnv (name : String)
  /-- `cmd.Start()` issued for the constructed child invocation. -/
  | spawnChild (cmd : Cmd)
  /-- `process.SignalHandlers.Listen()` entered (never returns). -/
  | enterListen
  /-- the restart goroutine's `done <- true` rendezvoused with `<-done`. -/
  | doneSend
  /-- `os.Exit code`. -/
  | exit (code : Nat)
deriving DecidableEq

/-- Per-run oracle for the fallible syscalls and the invocation identity:
`args` is `os.Args`, `spawnErr` the outcome of `cmd.Start()` on the parent
path (`none` = started; on success `cmd.Process.Release()` returns nil on
this platform), `saveFail` the outcome of the pid-file write on the child
path, and `abs` is `filepath.Abs` under the current working directory. -/
structure Ctx where
  args : List String
  spawnErr : Option String
  saveFail : Option String
  abs : String → String

/-- `IsChild`: `os.Getenv(process.DaemonTag) == "true"`. -/
def Process.IsChild (p : Process) (env : Env) : Bool :=
  getenv env p.DaemonTag == "true"

/-- The `exec.Cmd` built by the parent path of `Run`. -/
def mkCmd (p : Process) (c : Ctx) (env : Env) : Cmd :=
  { path := c.args.headD ""
    args := c.args.tail
    env := envRender env ++ [p.DaemonTag ++ "=true"]
    stdin := p.Pipeline.1
    stdout := p.Pipeline.2.1
    stderr := p.Pipeline.2.2 }

/-- `Process.Run`.  Child path (`IsChild`): `Pid.Save` — returning its error
on failure — then `go worker.Start()` and the blocking
`SignalHandlers.Listen()`.  Parent path: build the child invocation, start
it, and return the start error (or the nil result of
`cmd.Process.Release()` after a successful start).  Returns
(emitted events, returned error, resulting system state). -/
def Process.Run (p : Process) (c : Ctx) (env : Env) (s : Sys) :
    List Event × Option String × Sys :=
  if p.IsChild env then
    match p.Pid.Save c.abs s c.saveFail with
    | (s', some e) => ([Event.pidSave], some e, s')
    | (s', none) =>
        ([Event.pidSave, Event.workerStart, Event.enterListen], none, s')
  else
    ([Event.spawnChild (mkCmd p c env)], c.spawnErr, s)

/-- The trace of the default interrupt handler (`registerDefaultInterruptHandle`):
`worker.Stop()`; on error `Pipeline[1].WriteString(err.Error())`;
`Pid.Remove()`; `os.Exit(0)`. -/
def Process.interruptHandle (p : Process) : List Event :=
  Event.workerStop ::
    ((match p.worker.stopResult with
      | some e => [Event.writeStream p.Pipeline.2.1 e]
      | none => []) ++ [Event.pidRemove, Event.exit 0])

/-- The trace of the default stop handler (`registerDefaultStopHandle`,
listening for `SIGUSR1`): `worker.Stop()`; on error
`Pipeline[1].WriteString(err.Error())`; `Pid.Remove()`; `os.Exit(0)`. -/
def Process.stopHandle (p : Process) : List Event :=
  Event.workerStop ::
    ((match p.worker.stopResult with
      | some e => [Event.writeStream p.Pipeline.2.1 e]
      | none => []) ++ [Event.pidRemove, Event.exit 0])

/-- The events of the goroutine spawned by the restart handler:
`worker.Restart()`; on error `Pipeline[1].WriteString(err.Error())`; then
`done <- true` (the send is the rendezvous event `doneSend`, pinned
separately since the channel is unbuffered). -/
def Process.restartGo (p : Process) : List Event :=
  Event.workerRestart ::
    (match p.worker.restartResult with
     | some e => [Event.writeStream p.Pipeline.2.1 e]
     | none => [])

/-- The main-line events of the restart handler after `Pid.Remove()` and the
`go` statement: `os.Unsetenv(process.DaemonTag)`; `process.Run()` (on the
environment with the tag cleared and the system state after the removal);
on a `Run` error `Pipeline[1].WriteString(err.Error())`. -/
def Process.restartMain (p : Process) (c : Ctx) (env : Env) (s : Sys) :
    List Event :=
  let env' := envUnset env p.DaemonTag
  let r := p.Run c env' (p.Pid.Remove c.abs s)
  Event.unsetEnv p.DaemonTag ::
    (r.1 ++ (match r.2.1 with
             | some e => [Event.writeStream p.Pipeline.2.1 e]
             | none => []))

/-- `Shuffle a b c`: `c` is an interleaving of `a` and `b` that preserves
the relative order within each. -/
inductive Shuffle {α : Type} : List α → List α → List α → Prop where
  | nil : Shuffle [] [] []
  | left {x : α} {a b c : List α} :
      Shuffle a b c → Shuffle (x :: a) b (x :: c)
  | right {x : α} {a b c : List α} :
      Shuffle a b c → Shuffle a (x :: b) (x :: c)

/-- The possible traces of the default restart handler
(`registerDefaultRestartHandle`, listening for `SIGUSR2`): `Pid.Remove()`
first; then the goroutine running `worker.Restart()` interleaves with the
main line (`Unsetenv`, re-entered `Run`, error report); the unbuffered
`done` rendezvous completes after both; `os.Exit(0)` last. -/
def Process.RestartTrace (p : Process) (c : Ctx) (env : Env) (s : Sys)
    (l : List Event) : Prop :=
  ∃ t, Shuffle (p.restartMain c env s) p.restartGo t ∧
    l = Event.pidRemove :: (t ++ [Event.doneSend, Event.exit 0])

/-- A signal handler's observable behaviour: the set of traces it may emit. -/
abbrev TraceSet := List Event → Prop

/-- The signal identifiers the package uses.  `os.Interrupt` is from the
standard library; `SIGUSR1`/`SIGUSR2` are the platform's first and second
user-defined signals (their one-line constant declarations live in a
platform file of the repository that is not among the provided sources;
they denote distinct signals, as the spec states). -/
inductive Signal where
  | interrupt
  | usr1
  | usr2
  | term
  | other (n : Nat)
deriving DecidableEq

/-- The handler registry `signalHandlers` (a map from signal to handler). -/
abbrev SignalHandlers := Signal → Option TraceSet

/-- `Process.On`: insert/replace the handler registered for a signal
(last registration wins). -/
def onSignal (m : SignalHandlers) (sig : Signal) (h : TraceSet) :
    SignalHandlers :=
  fun s => if s = sig then some h else m s

/-- The registry built by `NewProcess`: `registerDefaultInterruptHandle()`,
then `registerDefaultStopHandle()` (SIGUSR1), then
`registerDefaultRestartHandle()` (SIGUSR2), each via `On`. -/
def defaultHandlers (p : Process) (c : Ctx) (env : Env) (s : Sys) :
    SignalHandlers :=
  onSignal
    (onSignal
      (onSignal (fun _ => none)
        Signal.interrupt (fun l => l = p.interruptHandle))
      Signal.usr1 (fun l => l = p.stopHandle))
    Signal.usr2 (p.RestartTrace c env s)

/-! ## Interleaving lemmas -/

theorem Shuffle.perm {α : Type} {a b c : List α} (h : Shuffle a b c) :
    c.Perm (a ++ b) := by
  induction h with
  | nil => exact List.Perm.nil
  | left _ ih => exact ih.cons _
  | right _ ih => exact (ih.cons _).trans List.perm_middle.symm

theorem Shuffle.sublist_left {α : Type} {a b c : List α} (h : Shuffle a b c) :
    a.Sublist c := by
  induction h with
  | nil => exact List.Sublist.slnil
  | left _ ih => exact ih.cons₂ _
  | right _ ih => exact ih.cons _

theorem Shuffle.sublist_right {α : Type} {a b c : List α} (h : Shuffle a b c) :
    b.Sublist c := by
  induction h with
  | nil => exact List.Sublist.slnil
  | left _ ih => exact ih.cons _
  | right _ ih => exact ih.cons₂ _

theorem Shuffle.append_left_right {α : Type} (a b : List α) :
    Shuffle a b (a ++ b) := by
  induction a with
  | nil =>
      induction b with
      | nil => exact Shuffle.nil
      | cons x t ih => exact Shuffle.right ih
  | cons x t ih => exact Shuffle.left ih

/-! ## Concrete sample values (used by the closed witness theorems) -/

/-- The spec's concrete scenario: service `"http"`, save directory `"./"`,
numeric identifier `4242`, no retained handle. -/
def pid0 : Pid :=
  { ServicesName := "http", SavePath := "./", PidNum := 4242, File := none }

/-- A second record with the same name and save directory. -/
def pid1 : Pid :=
  { ServicesName := "http", SavePath := "./", PidNum := 1, File := none }

/-- A concrete `filepath.Abs` for a process whose working directory is
`/srv`. -/
def abs0 : String → String := fun d => "/srv/" ++ d

/-- An empty system state. -/
def sys0 : Sys := { fs := [], openFDs := [], nextFD := 0 }

def worker0 : Worker :=
  { Name := "http", PidSavePath := "./", stopResult := none,
    restartResult := none }

def proc0 : Process :=
  { Pipeline := (0, 1, 2), Pid := pid0, worker := worker0,
    DaemonTag := "DAEMON" }

def ctx0 : Ctx :=
  { args := ["/srv/http", "start"], spawnErr := none, saveFail := none,
    abs := abs0 }

/-! ## Claim theorems -/

/-- C6: for all service names N and save directories D, `SaveFilename` is a
pure function of (N, D): it returns `<absolute form of D>/<N>.pid`, and any
two records agreeing on name and save directory (evaluated in the same
process, i.e. under the same `filepath.Abs`) yield the same string. -/
theorem SaveFilename_pure (abs : String → String) (p q : Pid)
    (hn : p.ServicesName = q.ServicesName) (hd : p.SavePath = q.SavePath) :
    p.SaveFilename abs = abs p.SavePath ++ "/" ++ p.ServicesName ++ ".pid" ∧
    p.SaveFilename abs = q.SaveFilename abs := by
  refine ⟨rfl, ?_⟩
  simp [Pid.SaveFilename, hn, hd]

theorem SaveFilename_pure_witness :
    pid0.ServicesName = pid1.ServicesName ∧ pid0.SavePath = pid1.SavePath ∧
    (pid0.SaveFilename abs0 =
        abs0 pid0.SavePath ++ "/" ++ pid0.ServicesName ++ ".pid" ∧
      pid0.SaveFilename abs0 = pid1.SaveFilename abs0) :=
  ⟨rfl, rfl, SaveFilename_pure abs0 pid0 pid1 rfl rfl⟩

/-- C7: after a successful `Save` of a record with numeric identifier p, the
file at the derived path contains exactly the decimal string of p (what
`strconv.Itoa` produces — no newline, nothing else). -/
theorem Save_writes_decimal (abs : String → String) (p : Pid) (s : Sys)
    (fail : Option String) (h : (p.Save abs s fail).2 = none) :
    fsGet (p.Save abs s fail).1.fs (p.SaveFilename abs)
      = some (toString p.PidNum) := by
  cases fail with
  | some e => simp [Pid.Save, Pid.SaveLocal, write] at h
  | none => simp [Pid.Save, Pid.SaveLocal, write, fsGet_fsSet]

theorem Save_writes_decimal_witness :
    (pid0.Save abs0 sys0 none).2 = none ∧
    fsGet (pid0.Save abs0 sys0 none).1.fs (pid0.SaveFilename abs0)
      = some (toString pid0.PidNum) ∧
    toString pid0.PidNum = "4242" :=
  ⟨rfl, Save_writes_decimal abs0 pid0 sys0 none rfl, rfl⟩

/-- C9: `Remove` is total (it is a plain function on any record and state,
including a record that was never `Save`d, whose handle is nil and whose
file is absent) and idempotent, and after any `Remove` no file exists at
the derived path. -/
theorem Remove_idempotent (abs : String → String) (p : Pid) (s : Sys) :
    p.Remove abs (p.Remove abs s) = p.Remove abs s ∧
    fsGet (p.Remove abs s).fs (p.SaveFilename abs) = none := by
  constructor
  · cases hf : p.File with
    | none => simp [Pid.Remove, closeFile, hf, fsDelete_idem]
    | some fd =>
        simp [Pid.Remove, closeFile, hf, fsDelete_idem, filter_self_idem]
  · simp [Pid.Remove, closeFile, fsGet_fsDelete]

/-- C8 (the code violates the claim): `Pid.Save` has a VALUE receiver, so
the handle produced by the write is assigned to a discarded copy
(`SaveLocal` shows the copy did receive it); the caller's record still has
`File = none` after a successful `Save`, and a subsequent `Remove` on that
record closes a nil handle: the descriptor opened by `Save` (fd 0) is still
open after `Remove`, even though the file itself is deleted. -/
theorem Save_value_receiver_drops_handle :
    (pid0.Save abs0 sys0 none).2 = none ∧
    (pid0.SaveLocal abs0 sys0 none).2.2.File = some 0 ∧
    (pid0.Save abs0 sys0 none).1.openFDs = [0] ∧
    pid0.File = none ∧
    (pid0.Remove abs0 (pid0.Save abs0 sys0 none).1).openFDs = [0] ∧
    fsGet (pid0.Remove abs0 (pid0.Save abs0 sys0 none).1).fs
      (pid0.SaveFilename abs0) = none := by
  refine ⟨rfl, rfl, rfl, rfl, rfl, ?_⟩
  decide

/-- C2: the default stop handler invokes `worker.Stop()` exactly once;
the error text is written to the configured output stream (`Pipeline[1]`)
iff `Stop` returned an error; and the shutdown continues regardless: the
stop invocation, the PID-record removal, and the terminating `os.Exit(0)`
occur in that order, with `exit 0` the handler's final action. -/
theorem stop_handler_ok (p : Process) :
    p.stopHandle.count Event.workerStop = 1 ∧
    (∀ e, Event.writeStream p.Pipeline.2.1 e ∈ p.stopHandle ↔
      p.worker.stopResult = some e) ∧
    [Event.workerStop, Event.pidRemove, Event.exit 0].Sublist p.stopHandle ∧
    p.stopHandle.getLast? = some (Event.exit 0) := by
  cases hr : p.worker.stopResult with
  | none =>
      refine ⟨?_, ?_, ?_, ?_⟩
      · simp [Process.stopHandle, hr]
      · intro e
        simp [Process.stopHandle, hr]
      · simp [Process.stopHandle, hr]
      · simp [Process.stopHandle, hr]
  | some e0 =>
      refine ⟨?_, ?_, ?_, ?_⟩
      · simp [Process.stopHandle, hr]
      · intro e
        simp [Process.stopHandle, hr, eq_comm]
      · simp only [Process.stopHandle, hr]
        exact ((List.Sublist.refl _).cons _).cons₂ _
      · simp [Process.stopHandle, hr]

/-- C3: the default handler registered for the interrupt signal and the
default handler registered for SIGUSR1 ("stop") are behaviorally identical:
their traces coincide for every workload state, and the registry built by
`NewProcess` maps both signals to that same behaviour. -/
theorem interrupt_stop_handlers_identical (p : Process) (c : Ctx)
    (env : Env) (s : Sys) :
    p.interruptHandle = p.stopHandle ∧
    defaultHandlers p c env s Signal.interrupt
      = some (fun l => l = p.stopHandle) ∧
    defaultHandlers p c env s Signal.usr1
      = some (fun l => l = p.stopHandle) :=
  ⟨rfl, rfl, rfl⟩

/-- C4: on the child path of `Run` (daemon tag equal to `"true"`), a
failing PID-record persist makes `Run` return that error with no workload
effect: the only emitted event is the `Pid.Save` attempt — neither the
`go worker.Start()` nor the dispatch loop is reached — and the system state
is unchanged. -/
theorem run_child_save_error (p : Process) (c : Ctx) (env : Env) (s : Sys)
    (e : String) (hc : getenv env p.DaemonTag = "true")
    (hf : c.saveFail = some e) :
    (p.Run c env s).2.1 = some e ∧
    (p.Run c env s).1 = [Event.pidSave] ∧
    Event.workerStart ∉ (p.Run c env s).1 ∧
    Event.enterListen ∉ (p.Run c env s).1 ∧
    (p.Run c env s).2.2 = s := by
  have hb : p.IsChild env = true := by
    simp [Process.IsChild, hc]
  have hsave : p.Pid.Save c.abs s c.saveFail = (s, some e) := by
    simp [Pid.Save, Pid.SaveLocal, write, hf]
  refine ⟨?_, ?_, ?_, ?_, ?_⟩ <;> simp [Process.Run, hb, hsave]

/-- The environment of a running child: the daemon tag is set. -/
def envC : Env := [("DAEMON", "true")]

/-- An oracle whose pid-file write fails. -/
def ctxSaveFail : Ctx :=
  { args := ["/srv/http", "start"], spawnErr := none,
    saveFail := some "permission denied", abs := abs0 }

theorem run_child_save_error_witness :
    getenv envC proc0.DaemonTag = "true" ∧
    ctxSaveFail.saveFail = some "permission denied" ∧
    ((proc0.Run ctxSaveFail envC sys0).2.1 = some "permission denied" ∧
      (proc0.Run ctxSaveFail envC sys0).1 = [Event.pidSave] ∧
      Event.workerStart ∉ (proc0.Run ctxSaveFail envC sys0).1 ∧
      Event.enterListen ∉ (proc0.Run ctxSaveFail envC sys0).1 ∧
      (proc0.Run ctxSaveFail envC sys0).2.2 = sys0) :=
  ⟨by decide, rfl,
    run_child_save_error proc0 ctxSaveFail envC sys0 "permission denied"
      (by decide) rfl⟩

/-- C5: on the parent path of `Run` (daemon tag not `"true"`), exactly one
child invocation is constructed and started; it uses the same executable
path (`os.Args[0]`) and argument vector (`os.Args[1:]`) as the current
invocation, the full current environment plus the daemon tag forced to
`"true"`, and the three configured stream endpoints; `Run` returns an
error exactly when starting the child fails (a plain error value — the
path contains no panic), and leaves the system state untouched. -/
theorem run_parent_ok (p : Process) (c : Ctx) (env : Env) (s : Sys)
    (h : getenv env p.DaemonTag ≠ "true") :
    (p.Run c env s).1 = [Event.spawnChild (mkCmd p c env)] ∧
    (mkCmd p c env).path = c.args.headD "" ∧
    (mkCmd p c env).args = c.args.tail ∧
    (mkCmd p c env).env = envRender env ++ [p.DaemonTag ++ "=true"] ∧
    (mkCmd p c env).stdin = p.Pipeline.1 ∧
    (mkCmd p c env).stdout = p.Pipeline.2.1 ∧
    (mkCmd p c env).stderr = p.Pipeline.2.2 ∧
    (p.Run c env s).2.1 = c.spawnErr ∧
    (p.Run c env s).2.2 = s := by
  have hc : p.IsChild env = false := by
    simp [Process.IsChild, h]
  refine ⟨?_, rfl, rfl, rfl, rfl, rfl, rfl, ?_, ?_⟩ <;>
    simp [Process.Run, hc]

/-- The environment of a parent invocation: no daemon tag. -/
def envP : Env := [("HOME", "/root")]

theorem run_parent_ok_witness :
    getenv envP proc0.DaemonTag ≠ "true" ∧
    ((proc0.Run ctx0 envP sys0).1
        = [Event.spawnChild (mkCmd proc0 ctx0 envP)] ∧
      (mkCmd proc0 ctx0 envP).path = ctx0.args.headD "" ∧
      (mkCmd proc0 ctx0 envP).args = ctx0.args.tail ∧
      (mkCmd proc0 ctx0 envP).env
        = envRender envP ++ [proc0.DaemonTag ++ "=true"] ∧
      (mkCmd proc0 ctx0 envP).stdin = proc0.Pipeline.1 ∧
      (mkCmd proc0 ctx0 envP).stdout = proc0.Pipeline.2.1 ∧
      (mkCmd proc0 ctx0 envP).stderr = proc0.Pipeline.2.2 ∧
      (proc0.Run ctx0 envP sys0).2.1 = ctx0.spawnErr ∧
      (proc0.Run ctx0 envP sys0).2.2 = sys0) :=
  ⟨by decide, run_parent_ok proc0 ctx0 envP sys0 (by decide)⟩

/-! ## The restart handler -/

/-- The error-report block `if err != nil { Pipeline[1].WriteString(err.Error()) }`
as a list of events, for stating lemmas about the restart handler. -/
def errEvents (p : Process) (r : Option String) : List Event :=
  match r with
  | some e => [Event.writeStream p.Pipeline.2.1 e]
  | none => []

theorem restartGo_eq (p : Process) :
    p.restartGo = Event.workerRestart :: errEvents p p.worker.restartResult := by
  cases h : p.worker.restartResult <;>
    simp [Process.restartGo, errEvents, h]

/-- After `os.Unsetenv(process.DaemonTag)` the re-entered `Run` takes the
parent path, so the main line of the restart handler is exactly: clear the
tag, issue the child spawn, and report a spawn error if any. -/
theorem restartMain_eq (p : Process) (c : Ctx) (env : Env) (s : Sys) :
    p.restartMain c env s =
      Event.unsetEnv p.DaemonTag ::
        Event.spawnChild (mkCmd p c (envUnset env p.DaemonTag)) ::
          errEvents p c.spawnErr := by
  have hc : p.IsChild (envUnset env p.DaemonTag) = false := by
    simp [Process.IsChild, getenv_envUnset]
  cases h : c.spawnErr <;>
    simp [Process.restartMain, Process.Run, hc, errEvents, h]

theorem mem_errEvents (p : Process) (r : Option String) (x : Event) :
    x ∈ errEvents p r ↔
      ∃ e, r = some e ∧ x = Event.writeStream p.Pipeline.2.1 e := by
  cases r <;> simp [errEvents]

theorem count_workerRestart_errEvents (p : Process) (r : Option String) :
    (errEvents p r).count Event.workerRestart = 0 := by
  cases r <;> simp [errEvents]

/-- C1: every trace of the restart handler removes the PID record before
the replacement spawn issued by the re-entered `Run`; invokes the
workload's restart operation exactly once; clears the daemon tag before
the re-entered `Run`, which takes the parent path (a spawn is issued and no
child-path event — `Pid.Save` or the dispatch loop — occurs); and
terminates with `os.Exit(0)` only after the restart operation has completed
(the `done` rendezvous follows the restart invocation and precedes the
exit, which is the final event). -/
theorem restart_handler_ok (p : Process) (c : Ctx) (env : Env) (s : Sys)
    (l : List Event) (h : p.RestartTrace c env s l) :
    [Event.pidRemove,
      Event.spawnChild (mkCmd p c (envUnset env p.DaemonTag))].Sublist l ∧
    l.count Event.workerRestart = 1 ∧
    [Event.unsetEnv p.DaemonTag,
      Event.spawnChild (mkCmd p c (envUnset env p.DaemonTag))].Sublist l ∧
    Event.pidSave ∉ l ∧
    Event.enterListen ∉ l ∧
    [Event.workerRestart, Event.doneSend, Event.exit 0].Sublist l ∧
    l.getLast? = some (Event.exit 0) := by
  obtain ⟨t, hsh, hl⟩ := h
  subst hl
  have hperm : t.Perm (p.restartMain c env s ++ p.restartGo) := hsh.perm
  have hsubL : (p.restartMain c env s).Sublist t := hsh.sublist_left
  have hsubR : p.restartGo.Sublist t := hsh.sublist_right
  rw [restartMain_eq] at hsubL hperm
  rw [restartGo_eq] at hsubR hperm
  refine ⟨?_, ?_, ?_, ?_, ?_, ?_, ?_⟩
  · have hx : [Event.spawnChild
        (mkCmd p c (envUnset env p.DaemonTag))].Sublist
        (Event.unsetEnv p.DaemonTag ::
          Event.spawnChild (mkCmd p c (envUnset env p.DaemonTag)) ::
            errEvents p c.spawnErr) :=
      ((List.nil_sublist _).cons₂ _).cons _
    exact ((hx.trans hsubL).trans (List.sublist_append_left t _)).cons₂ _
  · have ht : t.count Event.workerRestart = 1 := by
      rw [hperm.count_eq]
      simp [List.count_append, List.count_cons,
        count_workerRestart_errEvents]
    simp [List.count_cons, List.count_append, ht]
  · have hx : [Event.unsetEnv p.DaemonTag,
        Event.spawnChild (mkCmd p c (envUnset env p.DaemonTag))].Sublist
        (Event.unsetEnv p.DaemonTag ::
          Event.spawnChild (mkCmd p c (envUnset env p.DaemonTag)) ::
            errEvents p c.spawnErr) :=
      ((List.nil_sublist _).cons₂ _).cons₂ _
    exact ((hx.trans hsubL).trans (List.sublist_append_left t _)).cons _
  · have ht : Event.pidSave ∉ t := by
      rw [hperm.mem_iff]
      simp [mem_errEvents]
    simp [List.mem_cons, List.mem_append, ht]
  · have ht : Event.enterListen ∉ t := by
      rw [hperm.mem_iff]
      simp [mem_errEvents]
    simp [List.mem_cons, List.mem_append, ht]
  · have hx : [Event.workerRestart].Sublist
        (Event.workerRestart :: errEvents p p.worker.restartResult) :=
      (List.nil_sublist _).cons₂ _
    exact ((hx.trans hsubR).append
      (List.Sublist.refl [Event.doneSend, Event.exit 0])).cons _
  · have hx : Event.pidRemove :: (t ++ [Event.doneSend, Event.exit 0])
        = (Event.pidRemove :: (t ++ [Event.doneSend])) ++ [Event.exit 0] := by
      simp
    rw [hx, List.getLast?_concat]

/-- A concrete restart-handler trace (goroutine scheduled after the whole
main line). -/
def restartL0 : List Event :=
  Event.pidRemove ::
    ((proc0.restartMain ctx0 envC sys0 ++ proc0.restartGo) ++
      [Event.doneSend, Event.exit 0])

theorem restart_handler_ok_witness :
    proc0.RestartTrace ctx0 envC sys0 restartL0 ∧
    ([Event.pidRemove,
        Event.spawnChild
          (mkCmd proc0 ctx0 (envUnset envC proc0.DaemonTag))].Sublist
        restartL0 ∧
      restartL0.count Event.workerRestart = 1 ∧
      [Event.unsetEnv proc0.DaemonTag,
        Event.spawnChild
          (mkCmd proc0 ctx0 (envUnset envC proc0.DaemonTag))].Sublist
        restartL0 ∧
      Event.pidSave ∉ restartL0 ∧
      Event.enterListen ∉ restartL0 ∧
      [Event.workerRestart, Event.doneSend, Event.exit 0].Sublist restartL0 ∧
      restartL0.getLast? = some (Event.exit 0)) :=
  have hr : proc0.RestartTrace ctx0 envC sys0 restartL0 :=
    ⟨proc0.restartMain ctx0 envC sys0 ++ proc0.restartGo,
      Shuffle.append_left_right _ _, rfl⟩
  ⟨hr, restart_handler_ok proc0 ctx0 envC sys0 restartL0 hr⟩

/-- C10: when the re-entered `Run` inside the restart handler fails to
spawn the replacement child, the spawn error is merely written to the
configured output stream: every trace still contains the restart
rendezvous, every `os.Exit` in it carries status 0, and the final event is
`os.Exit(0)` — the old child exits successfully although no replacement
was started. -/
theorem restart_spawn_failure_ok (p : Process) (c : Ctx) (env : Env)
    (s : Sys) (l : List Event) (e : String) (hs : c.spawnErr = some e)
    (h : p.RestartTrace c env s l) :
    Event.writeStream p.Pipeline.2.1 e ∈ l ∧
    (∀ n, Event.exit n ∈ l → n = 0) ∧
    [Event.workerRestart, Event.doneSend, Event.exit 0].Sublist l ∧
    l.getLast? = some (Event.exit 0) := by
  obtain ⟨t, hsh, hl⟩ := h
  subst hl
  have hperm : t.Perm (p.restartMain c env s ++ p.restartGo) := hsh.perm
  have hsubR : p.restartGo.Sublist t := hsh.sublist_right
  rw [restartMain_eq] at hperm
  rw [restartGo_eq] at hsubR hperm
  refine ⟨?_, ?_, ?_, ?_⟩
  · have ht : Event.writeStream p.Pipeline.2.1 e ∈ t := by
      rw [hperm.mem_iff]
      simp [errEvents, hs]
    simp [List.mem_cons, List.mem_append, ht]
  · intro n hn
    have ht : Event.exit n ∉ t := by
      rw [hperm.mem_iff]
      simp [mem_errEvents]
    simp [List.mem_cons, List.mem_append, ht] at hn
    exact hn
  · have hx : [Event.workerRestart].Sublist
        (Event.workerRestart :: errEvents p p.worker.restartResult) :=
      (List.nil_sublist _).cons₂ _
    exact ((hx.trans hsubR).append
      (List.Sublist.refl [Event.doneSend, Event.exit 0])).cons _
  · have hx : Event.pidRemove :: (t ++ [Event.doneSend, Event.exit 0])
        = (Event.pidRemove :: (t ++ [Event.doneSend])) ++ [Event.exit 0] := by
      simp
    rw [hx, List.getLast?_concat]

/-- An oracle whose child spawn fails. -/
def ctxSpawnFail : Ctx :=
  { args := ["/srv/http", "start"],
    spawnErr := some "resource temporarily unavailable", saveFail := none,
    abs := abs0 }

/-- A concrete restart-handler trace under a failing spawn. -/
def restartLF : List Event :=
  Event.pidRemove ::
    ((proc0.restartMain ctxSpawnFail envC sys0 ++ proc0.restartGo) ++
      [Event.doneSend, Event.exit 0])

theorem restart_spawn_failure_ok_witness :
    ctxSpawnFail.spawnErr = some "resource temporarily unavailable" ∧
    proc0.RestartTrace ctxSpawnFail envC sys0 restartLF ∧
    (Event.writeStream proc0.Pipeline.2.1
        "resource temporarily unavailable" ∈ restartLF ∧
      (∀ n, Event.exit n ∈ restartLF → n = 0) ∧
      [Event.workerRestart, Event.doneSend, Event.exit 0].Sublist restartLF ∧
      restartLF.getLast? = some (Event.exit 0)) :=
  have hr : proc0.RestartTrace ctxSpawnFail envC sys0 restartLF :=
    ⟨proc0.restartMain ctxSpawnFail envC sys0 ++ proc0.restartGo,
      Shuffle.append_left_right _ _, rfl⟩
  ⟨rfl, hr,
    restart_spawn_failure_ok proc0 ctxSpawnFail envC sys0 restartLF
      "resource temporarily unavailable" rfl hr⟩

end Daemon
